import Mathlib

/-!
Verification of the command-sequence parser, command transmitter, power-rail
controller and panel lifecycle state machine of
`drivers/gpu/drm/panel/panel-simple-dsi.c`.

Modelling conventions:
* bytes are `Nat` values; a load of a `u8` field from the buffer is taken
  `% 256` (the memory cell holds a byte);
* the C `unsigned int len` counter of the parser is a `Nat` reduced
  `% 2^32` exactly where the C subtraction can wrap;
* a read through a pointer that lies past the end of the duplicated buffer
  is undefined behaviour in the C; the model reports it as the distinguished
  outcome `ScanResult.oob`;
* both parse failures return `-EINVAL` in C; the model keeps the two
  `dev_err` branches apart (`lenError` for the `dchdr->dlen > len` branch,
  `trailerError` for the `len != 0` branch after the loop).
-/

/-- One parsed command, `struct cmd_desc`: header fields `dtype` (data type)
and `wait` (ms), plus the payload slice the descriptor points into the
duplicated buffer (`dlen` is the slice length). -/
structure Cmd where
  dtype : Nat
  wait : Nat
  payload : List Nat
deriving DecidableEq

/-- Outcome of the scan loop of `panel_simple_parse_cmds` (lines 159-180). -/
inductive ScanResult where
  | ok (cnt : Nat)
  | lenError
  | trailerError
  | oob
deriving DecidableEq

/-- The scan loop of `panel_simple_parse_cmds`:
`while (len > sizeof(*dchdr)) { dchdr = bp; if (dchdr->dlen > len) return -EINVAL;
 bp += 3; len -= 3; bp += dchdr->dlen; len -= dchdr->dlen; cnt++; }`
followed by `if (len != 0) return -EINVAL;`.
`len` is C `unsigned int`, so the two subtractions are performed mod `2^32`.
Reading the header dereferences the buffer at offset `bp`; when the three
header bytes are no longer inside the `blen`-byte buffer the C reads out of
bounds, reported here as `ScanResult.oob`. -/
def scanCmds (data : List Nat) (bp len cnt : Nat) : ScanResult :=
  if len > 3 then
    if h : bp + 3 ≤ data.length then
      let dlen := data.getD (bp + 2) 0 % 256
      if dlen > len then ScanResult.lenError
      else scanCmds data (bp + 3 + dlen) ((len + 4294967296 - (3 + dlen)) % 4294967296) (cnt + 1)
    else ScanResult.oob
  else if len = 0 then ScanResult.ok cnt else ScanResult.trailerError
termination_by data.length - bp
decreasing_by omega

/-- The second pass of `panel_simple_parse_cmds` (lines 192-202): materialize
`cnt` command descriptors from the validated buffer, each payload a slice of
the buffer starting right after its 3-byte header. -/
def buildCmds (data : List Nat) (bp : Nat) : Nat → List Cmd
  | 0 => []
  | n + 1 =>
      let dlen := data.getD (bp + 2) 0 % 256
      { dtype := data.getD bp 0 % 256
        wait := data.getD (bp + 1) 0 % 256
        payload := (data.drop (bp + 3)).take dlen } :: buildCmds data (bp + 3 + dlen) n

/-- Outcome of `panel_simple_parse_cmds` as a whole. -/
inductive ParseResult where
  | ok (cmds : List Cmd)
  | lenError
  | trailerError
  | oob
deriving DecidableEq

/-- Embedding of `panel_simple_parse_cmds`: scan to count and validate the records, then
materialize the command list (allocation failures are not modelled). -/
def parseCmds (data : List Nat) : ParseResult :=
  match scanCmds data 0 data.length 0 with
  | ScanResult.ok cnt => ParseResult.ok (buildCmds data 0 cnt)
  | ScanResult.lenError => ParseResult.lenError
  | ScanResult.trailerError => ParseResult.trailerError
  | ScanResult.oob => ParseResult.oob

/-- Serialization of one command in the wire format of §6:
type byte, wait byte, payload-length byte, then the payload. -/
def serializeCmd (c : Cmd) : List Nat :=
  c.dtype :: c.wait :: c.payload.length :: c.payload

/-- Consecutive records in one buffer. -/
def serializeCmds (cs : List Cmd) : List Nat :=
  (cs.map serializeCmd).flatten

/-- Size in the buffer of one command: 3-byte header plus payload. -/
def cmdSize (c : Cmd) : Nat := 3 + c.payload.length

/-- Total buffer size of a command list. -/
def sizeSum (cs : List Cmd) : Nat := (cs.map cmdSize).sum

/-- Whether the last command of a list has a nonempty payload (vacuously true
for the empty list).  The scan loop runs only `while (len > 3)`, so a
trailing header-only record (payload length 0) leaves `len == 3` behind and
is rejected as a malformed trailer. -/
def lastOk : List Cmd → Bool
  | [] => true
  | [c] => c.payload.length != 0
  | _ :: rest => lastOk rest

/-- Observable hardware actions of the driver: sleeps (`panel_simple_sleep`),
GPIO line writes (`gpiod_direction_output`), DSI channel writes
(`mipi_dsi_generic_write` / `mipi_dsi_dcs_write_buffer`) and the `dev_err`
report of a failed channel write. -/
inductive Event where
  | msleep (ms : Nat)
  | usleepRange (lo hi : Nat)
  | gpioEnable (level : Nat)
  | gpioReset (level : Nat)
  | genericWrite (payload : List Nat)
  | dcsWrite (payload : List Nat)
  | logWriteFail (err : Int)
deriving DecidableEq

/-- Embedding of `panel_simple_sleep`: two-tier sleep policy — `msleep` above 20 ms,
`usleep_range(msec*1000, (msec+1)*1000)` otherwise. -/
def panel_simple_sleep (msec : Nat) : Event :=
  if msec > 20 then Event.msleep msec
  else Event.usleepRange (msec * 1000) ((msec + 1) * 1000)

/-- Constants from `video/mipi_display.h` used by the dtype switch. -/
def MIPI_DSI_GENERIC_SHORT_WRITE_0_PARAM : Nat := 0x03
def MIPI_DSI_GENERIC_SHORT_WRITE_1_PARAM : Nat := 0x13
def MIPI_DSI_GENERIC_SHORT_WRITE_2_PARAM : Nat := 0x23
def MIPI_DSI_GENERIC_LONG_WRITE : Nat := 0x29
def MIPI_DSI_DCS_SHORT_WRITE : Nat := 0x05
def MIPI_DSI_DCS_SHORT_WRITE_PARAM : Nat := 0x15
def MIPI_DSI_DCS_LONG_WRITE : Nat := 0x39

/-- The generic-write class of the dtype switch in
`panel_simple_dsi_send_cmds` (lines 220-223). -/
def isGenericWriteType (t : Nat) : Bool :=
  t == MIPI_DSI_GENERIC_SHORT_WRITE_0_PARAM ||
  t == MIPI_DSI_GENERIC_SHORT_WRITE_1_PARAM ||
  t == MIPI_DSI_GENERIC_SHORT_WRITE_2_PARAM ||
  t == MIPI_DSI_GENERIC_LONG_WRITE

/-- The DCS-write class of the dtype switch (lines 227-229). -/
def isDcsWriteType (t : Nat) : Bool :=
  t == MIPI_DSI_DCS_SHORT_WRITE ||
  t == MIPI_DSI_DCS_SHORT_WRITE_PARAM ||
  t == MIPI_DSI_DCS_LONG_WRITE

/-- A dtype in either of the two recognized write classes. -/
def recognizedType (t : Nat) : Bool := isGenericWriteType t || isDcsWriteType t

/-- Linux error number used by the driver (returned negated). -/
def EINVAL : Int := 22

/-- Loop body of `panel_simple_dsi_send_cmds` from command index `i` on.
`we i` is the return value of the underlying channel write for the i-th
command (the channel is injected, so failures can be modelled).  A dtype
outside the two classes hits the `default: return -EINVAL` arm at once; a
failed channel write is logged (`dev_err`) and the loop continues; a nonzero
`wait` sleeps after the write.  The function returns `0` when the loop
finishes. -/
def sendCmdsFrom (we : Nat → Int) (i : Nat) : List Cmd → Int × List Event
  | [] => (0, [])
  | c :: rest =>
      if isGenericWriteType c.dtype then
        let err := we i
        let r := sendCmdsFrom we (i + 1) rest
        (r.1, Event.genericWrite c.payload ::
          ((if err < 0 then [Event.logWriteFail err] else []) ++
           (if c.wait != 0 then [panel_simple_sleep c.wait] else []) ++ r.2))
      else if isDcsWriteType c.dtype then
        let err := we i
        let r := sendCmdsFrom we (i + 1) rest
        (r.1, Event.dcsWrite c.payload ::
          ((if err < 0 then [Event.logWriteFail err] else []) ++
           (if c.wait != 0 then [panel_simple_sleep c.wait] else []) ++ r.2))
      else (-EINVAL, [])

/-- Embedding of `panel_simple_dsi_send_cmds`: return value together with the trace of
channel writes, failure reports and sleeps it performs, in order. -/
def panel_simple_dsi_send_cmds (we : Nat → Int) (cmds : List Cmd) : Int × List Event :=
  sendCmdsFrom we 0 cmds

/-- The regulator (power rail) capability: current state plus an injected
fault making `regulator_enable` fail (with `-EINVAL`; the precise errno is
irrelevant to the driver, which only tests `err < 0`). -/
structure Rail where
  is_on : Bool
  failEnable : Bool
deriving DecidableEq

/-- Model of `regulator_enable`: turns the rail on unless the injected fault fires. -/
def regulator_enable (r : Rail) : Int × Rail :=
  if r.failEnable then (-EINVAL, r) else (0, { r with is_on := true })

/-- Model of `regulator_disable`: turns the rail off. -/
def regulator_disable (r : Rail) : Int × Rail := (0, { r with is_on := false })

/-- Model of `regulator_is_enabled`: positive when the rail is on, `0` otherwise. -/
def regulator_is_enabled (r : Rail) : Int := if r.is_on then 1 else 0

/-- The hardware world threaded through the lifecycle functions: rail state
plus the trace of observable events. -/
structure Hw where
  rail : Rail
  events : List Event
deriving DecidableEq

/-- Record one event. -/
def Hw.emit (hw : Hw) (e : Event) : Hw := { hw with events := hw.events ++ [e] }

/-- Record a list of events. -/
def Hw.emitAll (hw : Hw) (es : List Event) : Hw := { hw with events := hw.events ++ es }

/-- The C logical-not on an int level: `!x`. -/
def cNot (x : Nat) : Nat := if x = 0 then 1 else 0

/-- The driver state of `struct panel_simple` relevant to the lifecycle:
the two state flags, the board configuration (inversion flag, reset level,
which optional handles exist, the six delays) and the parsed sequences.
`has_desc` models the nullable `p->desc` pointer. -/
structure Panel where
  prepared : Bool
  enabled : Bool
  power_invert : Bool
  reset_level : Nat
  has_enable_gpio : Bool
  has_reset_gpio : Bool
  has_dsi : Bool
  has_desc : Bool
  delay_prepare : Nat
  delay_reset : Nat
  delay_init : Nat
  delay_enable : Nat
  delay_disable : Nat
  delay_unprepare : Nat
  on_cmds : Option (List Cmd)
  off_cmds : Option (List Cmd)
deriving DecidableEq

/-- Embedding of `panel_simple_regulator_enable` (lines 335-353): with `power_invert`,
ensure the rail is off (never fails); without, `regulator_enable` and
surface its failure. -/
def panel_simple_regulator_enable (p : Panel) (hw : Hw) : Int × Hw :=
  if p.power_invert then
    if regulator_is_enabled hw.rail > 0 then
      (0, { hw with rail := (regulator_disable hw.rail).2 })
    else (0, hw)
  else
    let r := regulator_enable hw.rail
    if r.1 < 0 then (r.1, { hw with rail := r.2 })
    else (r.1, { hw with rail := r.2 })

/-- Embedding of `panel_simple_regulator_disable` (lines 355-374): with `power_invert`,
ensure the rail is on (surfacing an enable failure); without,
`regulator_disable` (return value ignored by the C). -/
def panel_simple_regulator_disable (p : Panel) (hw : Hw) : Int × Hw :=
  if p.power_invert then
    if regulator_is_enabled hw.rail = 0 then
      let r := regulator_enable hw.rail
      if r.1 < 0 then (r.1, { hw with rail := r.2 })
      else (r.1, { hw with rail := r.2 })
    else (0, hw)
  else
    (0, { hw with rail := (regulator_disable hw.rail).2 })

/-- Embedding of `panel_simple_prepare` (lines 422-457): no-op when already prepared;
abort with the rail error if the rail step fails; otherwise enable line,
prepare delay, reset line inactive, reset delay, reset line active, init
delay, then set `prepared`. -/
def panel_simple_prepare (p : Panel) (hw : Hw) : Int × Panel × Hw :=
  if p.prepared then (0, p, hw)
  else
    let r := panel_simple_regulator_enable p hw
    if r.1 < 0 then (r.1, p, r.2)
    else
      let hw1 := if p.has_enable_gpio then r.2.emit (Event.gpioEnable 1) else r.2
      let hw2 := if p.has_desc && p.delay_prepare != 0 then
        hw1.emit (panel_simple_sleep p.delay_prepare) else hw1
      let hw3 := if p.has_reset_gpio then
        hw2.emit (Event.gpioReset (cNot p.reset_level)) else hw2
      let hw4 := if p.has_desc && p.delay_reset != 0 then
        hw3.emit (panel_simple_sleep p.delay_reset) else hw3
      let hw5 := if p.has_reset_gpio then
        hw4.emit (Event.gpioReset p.reset_level) else hw4
      let hw6 := if p.has_desc && p.delay_init != 0 then
        hw5.emit (panel_simple_sleep p.delay_init) else hw5
      (0, { p with prepared := true }, hw6)

/-- Embedding of `panel_simple_enable` (lines 459-480): no-op when already enabled;
enable delay, then send the on-sequence when present and a DSI channel
exists (a failure is logged but does not stop the transition), then set
`enabled` and return the send result. -/
def panel_simple_enable (we : Nat → Int) (p : Panel) (hw : Hw) : Int × Panel × Hw :=
  if p.enabled then (0, p, hw)
  else
    let hw1 := if p.has_desc && p.delay_enable != 0 then
      hw.emit (panel_simple_sleep p.delay_enable) else hw
    let r : Int × Hw :=
      match p.on_cmds with
      | some cs =>
          if p.has_dsi then
            let s := panel_simple_dsi_send_cmds we cs
            (s.1, hw1.emitAll s.2)
          else (0, hw1)
      | none => (0, hw1)
    (r.1, { p with enabled := true }, r.2)

/-- Embedding of `panel_simple_disable` (lines 376-389): no-op when not enabled;
disable delay, then clear `enabled`. -/
def panel_simple_disable (p : Panel) (hw : Hw) : Int × Panel × Hw :=
  if !p.enabled then (0, p, hw)
  else
    let hw1 := if p.has_desc && p.delay_disable != 0 then
      hw.emit (panel_simple_sleep p.delay_disable) else hw
    (0, { p with enabled := false }, hw1)

/-- Embedding of `panel_simple_unprepare` (lines 391-420): no-op when not prepared;
send the off-sequence (failure only logged), reset line to inactive,
enable line off, rail disable (return ignored), unprepare delay, clear
`prepared`, return 0. -/
def panel_simple_unprepare (we : Nat → Int) (p : Panel) (hw : Hw) : Int × Panel × Hw :=
  if !p.prepared then (0, p, hw)
  else
    let hw1 :=
      match p.off_cmds with
      | some cs =>
          if p.has_dsi then hw.emitAll (panel_simple_dsi_send_cmds we cs).2 else hw
      | none => hw
    let hw2 := if p.has_reset_gpio then
      hw1.emit (Event.gpioReset (cNot p.reset_level)) else hw1
    let hw3 := if p.has_enable_gpio then hw2.emit (Event.gpioEnable 0) else hw2
    let hw4 := (panel_simple_regulator_disable p hw3).2
    let hw5 := if p.has_desc && p.delay_unprepare != 0 then
      hw4.emit (panel_simple_sleep p.delay_unprepare) else hw4
    (0, { p with prepared := false }, hw5)

/-- The four lifecycle operations exposed through `drm_panel_funcs`. -/
inductive Op where
  | prepare
  | enable
  | disable
  | unprepare
deriving DecidableEq

/-- Apply one lifecycle operation (discarding the status return). -/
def stepOp (we : Nat → Int) (pw : Panel × Hw) (op : Op) : Panel × Hw :=
  match op with
  | Op.prepare => (panel_simple_prepare pw.1 pw.2).2
  | Op.enable => (panel_simple_enable we pw.1 pw.2).2
  | Op.disable => (panel_simple_disable pw.1 pw.2).2
  | Op.unprepare => (panel_simple_unprepare we pw.1 pw.2).2

/-- Run a sequence of lifecycle operations. -/
def runOps (we : Nat → Int) (ops : List Op) (pw : Panel × Hw) : Panel × Hw :=
  ops.foldl (stepOp we) pw

/-- Whether along a run every `enable` happens in a prepared state and every
`unprepare` happens with the enabled flag clear (the call discipline of the
display framework that the driver relies on). -/
def guardedOps (we : Nat → Int) : List Op → Panel × Hw → Bool
  | [], _ => true
  | op :: rest, pw =>
      (match op with
       | Op.enable => pw.1.prepared
       | Op.unprepare => !pw.1.enabled
       | _ => true) && guardedOps we rest (stepOp we pw op)

/-- Whether an event is a channel write. -/
def isWriteEvent : Event → Bool
  | Event.genericWrite _ => true
  | Event.dcsWrite _ => true
  | _ => false

/-- The channel writes of a trace, in order. -/
def writeEventsOf (evs : List Event) : List Event := evs.filter isWriteEvent

/-- The channel write `panel_simple_dsi_send_cmds` performs for a command of
recognized dtype. -/
def expectedWriteEvent (c : Cmd) : Event :=
  if isGenericWriteType c.dtype then Event.genericWrite c.payload
  else Event.dcsWrite c.payload

/-- Reading at an offset equals reading in the dropped suffix. -/
lemma getD_drop_add (data : List Nat) (bp i : Nat) :
    data.getD (bp + i) 0 = (data.drop bp).getD i 0 := by
  induction data generalizing bp with
  | nil => simp [List.getD]
  | cons a as ih =>
    cases bp with
    | zero => simp
    | succ b =>
      have hb : b + 1 + i = (b + i) + 1 := by omega
      rw [hb]
      simp only [List.getD_cons_succ, List.drop_succ_cons]
      exact ih b

/-- One iteration of the scan loop when the header is in bounds. -/
lemma scanCmds_step (data : List Nat) (bp len cnt : Nat)
    (hgt : len > 3) (hbp : bp + 3 ≤ data.length) :
    scanCmds data bp len cnt =
      if data.getD (bp + 2) 0 % 256 > len then ScanResult.lenError
      else scanCmds data (bp + 3 + data.getD (bp + 2) 0 % 256)
        ((len + 4294967296 - (3 + data.getD (bp + 2) 0 % 256)) % 4294967296) (cnt + 1) := by
  rw [scanCmds.eq_def, if_pos hgt, dif_pos hbp]

/-- Loop exit when at most one header size remains. -/
lemma scanCmds_stop (data : List Nat) (bp len cnt : Nat) (hle : ¬ len > 3) :
    scanCmds data bp len cnt =
      if len = 0 then ScanResult.ok cnt else ScanResult.trailerError := by
  rw [scanCmds.eq_def, if_neg hle]

/-- Invariant of the scan loop on the success path: starting at offset `bp`
with the counter still in sync (`len = blen - bp`), a successful scan means
the records materialized by the second pass from `bp` on fill the remaining
bytes exactly. -/
lemma scanCmds_ok_size (data : List Nat) (hlt : data.length < 4294967296) :
    ∀ n bp c cnt, data.length - bp = n → bp ≤ data.length →
      scanCmds data bp (data.length - bp) c = ScanResult.ok cnt →
      c ≤ cnt ∧ sizeSum (buildCmds data bp (cnt - c)) = data.length - bp := by
  intro n
  induction n using Nat.strong_induction_on with
  | _ n ih =>
    intro bp c cnt hn hbp hscan
    rw [scanCmds.eq_def] at hscan
    by_cases hgt : data.length - bp > 3
    · have hbp3 : bp + 3 ≤ data.length := by omega
      rw [if_pos hgt, dif_pos hbp3] at hscan
      obtain ⟨dlen, hd⟩ : ∃ d, data.getD (bp + 2) 0 % 256 = d := ⟨_, rfl⟩
      rw [hd] at hscan
      have hdlen_lt : dlen < 256 := hd ▸ Nat.mod_lt _ (by norm_num)
      by_cases hover : dlen > data.length - bp
      · rw [if_pos hover] at hscan
        exact absurd hscan (by simp)
      · rw [if_neg hover] at hscan
        push_neg at hover
        by_cases hfit : 3 + dlen ≤ data.length - bp
        · have harith : data.length - bp + 4294967296 - (3 + dlen)
              = (data.length - (bp + 3 + dlen)) + 4294967296 := by omega
          rw [harith, Nat.add_mod_right, Nat.mod_eq_of_lt (by omega)] at hscan
          have hm : data.length - (bp + 3 + dlen) < n := by omega
          obtain ⟨hc, hsz⟩ := ih _ hm (bp + 3 + dlen) (c + 1) cnt rfl (by omega) hscan
          refine ⟨by omega, ?_⟩
          have hsucc : cnt - c = (cnt - (c + 1)) + 1 := by omega
          rw [hsucc, buildCmds, hd]
          have hpay : ((data.drop (bp + 3)).take dlen).length = dlen := by
            rw [List.length_take, List.length_drop]
            omega
          simp only [sizeSum, List.map_cons, List.sum_cons, cmdSize] at hsz ⊢
          rw [hpay]
          omega
        · exfalso
          have hLlt : data.length - bp + 4294967296 - (3 + dlen) < 4294967296 := by omega
          rw [Nat.mod_eq_of_lt hLlt] at hscan
          rw [scanCmds.eq_def] at hscan
          rw [if_pos (by omega), dif_neg (by omega)] at hscan
          exact absurd hscan (by simp)
    · rw [if_neg hgt] at hscan
      by_cases hz : data.length - bp = 0
      · rw [if_pos hz] at hscan
        have hc : c = cnt := by
          simpa using hscan
        subst hc
        simp [buildCmds, sizeSum, hz]
      · rw [if_neg hz] at hscan
        exact absurd hscan (by simp)

/-- Claim C4: whenever `panel_simple_parse_cmds` succeeds, the sum over all
parsed commands of (3 + payload length) equals the buffer length exactly —
no trailing or missing bytes.  The hypothesis bounds the buffer length by
the range of the C `unsigned int` counter. -/
theorem parse_consumes_buffer_exactly (data : List Nat) (cmds : List Cmd)
    (hlt : data.length < 4294967296)
    (h : parseCmds data = ParseResult.ok cmds) :
    (cmds.map fun c => 3 + c.payload.length).sum = data.length := by
  rw [parseCmds] at h
  cases hs : scanCmds data 0 data.length 0 with
  | ok cnt =>
    rw [hs] at h
    simp only [ParseResult.ok.injEq] at h
    obtain ⟨hc, hsz⟩ := scanCmds_ok_size data hlt data.length 0 0 cnt
      (by omega) (by omega) (by simpa using hs)
    simp only [Nat.sub_zero] at hsz
    rw [h] at hsz
    simpa only [sizeSum, show cmdSize = (fun c : Cmd => 3 + c.payload.length) from rfl]
      using hsz
  | lenError => rw [hs] at h; cases h
  | trailerError => rw [hs] at h; cases h
  | oob => rw [hs] at h; cases h

/-- Witness for C4 at the concrete buffer `[0x05, 0x01, 0x01, 0x02]`,
one record with a 1-byte payload. -/
theorem parse_consumes_buffer_exactly_witness :
    parseCmds [5, 1, 1, 2] = ParseResult.ok [⟨5, 1, [2]⟩] ∧
    (([⟨5, 1, [2]⟩] : List Cmd).map fun c => 3 + c.payload.length).sum = 4 := by
  have hp : parseCmds [5, 1, 1, 2] = ParseResult.ok [⟨5, 1, [2]⟩] := by
    have h1 : scanCmds [5, 1, 1, 2] 4 0 1 = ScanResult.ok 1 := by
      rw [scanCmds.eq_def]
      norm_num
    have h0 : scanCmds [5, 1, 1, 2] 0 4 0 = ScanResult.ok 1 := by
      rw [scanCmds.eq_def]
      norm_num [h1]
    rw [parseCmds]
    norm_num [h0, buildCmds]
  exact ⟨hp, parse_consumes_buffer_exactly [5, 1, 1, 2] [⟨5, 1, [2]⟩] (by norm_num) hp⟩

/-- Claim C9: parse of an empty buffer succeeds with the empty command
sequence; parse of a nonempty buffer shorter than one 3-byte header fails
with the malformed-trailer error. -/
theorem parse_empty_and_short_buffer (data : List Nat)
    (h0 : data ≠ []) (h1 : data.length < 3) :
    parseCmds [] = ParseResult.ok [] ∧ parseCmds data = ParseResult.trailerError := by
  constructor
  · rw [parseCmds]
    rw [scanCmds.eq_def]
    simp [buildCmds]
  · have hne : data.length ≠ 0 := by
      simpa using h0
    rw [parseCmds]
    rw [scanCmds.eq_def]
    have hgt : ¬ data.length > 3 := by omega
    simp [hgt, hne]

/-- Witness for C9 at the concrete buffer `[0x09]`. -/
theorem parse_empty_and_short_buffer_witness :
    parseCmds [] = ParseResult.ok [] ∧ parseCmds [9] = ParseResult.trailerError :=
  parse_empty_and_short_buffer [9] (by simp) (by simp)

/-- Claim C1, evaluation at the failing input: the 5-byte buffer
`[0x05, 0x00, 0x04, 0xAA, 0xBB]` declares a 4-byte payload while only 2
bytes follow the header.  The bounds check `dchdr->dlen > len` compares the
payload length against the remaining count *including* the 3-byte header
(4 ≤ 5 passes), the unsigned counter wraps to `2^32 - 2`, and the next loop
iteration dereferences the header at offset 7 of the 5-byte buffer: the
parse reads past the end of the buffer instead of failing with the length
error the claim requires. -/
theorem parse_overlong_payload_reads_past_end :
    parseCmds [5, 0, 4, 170, 187] = ParseResult.oob ∧
    parseCmds [5, 0, 4, 170, 187] ≠ ParseResult.lenError := by
  have h2 : scanCmds [5, 0, 4, 170, 187] 7 4294967294 1 = ScanResult.oob := by
    rw [scanCmds.eq_def]
    norm_num
  have h1 : scanCmds [5, 0, 4, 170, 187] 0 5 0 = ScanResult.oob := by
    rw [scanCmds.eq_def]
    norm_num [h2]
  rw [parseCmds]
  norm_num [h1]
  decide

/-- Scanning and rebuilding a suffix that is the serialization of a
well-formed command list whose last payload is nonempty recovers exactly
that list. -/
lemma scan_serialized (data : List Nat) (hlt : data.length < 4294967296) :
    ∀ cs bp c,
      data.drop bp = serializeCmds cs →
      bp ≤ data.length →
      (∀ x ∈ cs, x.dtype < 256 ∧ x.wait < 256 ∧ x.payload.length ≤ 255) →
      lastOk cs = true →
      scanCmds data bp (data.length - bp) c = ScanResult.ok (c + cs.length) ∧
      buildCmds data bp cs.length = cs := by
  intro cs
  induction cs with
  | nil =>
    intro bp c hdrop hbp _ _
    have hlen0 : data.length - bp = 0 := by
      have hl := congrArg List.length hdrop
      simpa [serializeCmds] using hl
    rw [scanCmds_stop data bp _ c (by omega), if_pos hlen0]
    simp [buildCmds]
  | cons c0 cs' ih =>
    obtain ⟨d, w, p⟩ := c0
    intro bp c hdrop hbp hwf hlast
    obtain ⟨hd256, hw256, hp255⟩ :
        d < 256 ∧ w < 256 ∧ p.length ≤ 255 := hwf _ (List.mem_cons_self _ _)
    have hwfrest : ∀ x ∈ cs', x.dtype < 256 ∧ x.wait < 256 ∧ x.payload.length ≤ 255 :=
      fun x hx => hwf x (List.mem_cons_of_mem _ hx)
    have hdrop' : data.drop bp = d :: w :: p.length :: (p ++ serializeCmds cs') := by
      simpa [serializeCmds, serializeCmd] using hdrop
    have hlenEq : data.length - bp = 3 + p.length + (serializeCmds cs').length := by
      have hl := congrArg List.length hdrop'
      simp at hl
      omega
    have hpos : 0 < p.length + (serializeCmds cs').length := by
      cases cs' with
      | nil =>
        have hne : p.length ≠ 0 := by
          simpa [lastOk] using hlast
        omega
      | cons c1 t =>
        have h3 : (serializeCmds (c1 :: t)).length
            = 3 + c1.payload.length + (serializeCmds t).length := by
          simp [serializeCmds, serializeCmd]
          omega
        omega
    have hgt : data.length - bp > 3 := by omega
    have hbp3 : bp + 3 ≤ data.length := by omega
    have h2 : data.getD (bp + 2) 0 = p.length := by
      rw [getD_drop_add, hdrop']
      simp
    have hpl : data.getD (bp + 2) 0 % 256 = p.length := by
      rw [h2, Nat.mod_eq_of_lt (by omega)]
    have h0 : data.getD bp 0 = d := by
      have hg := getD_drop_add data bp 0
      rw [hdrop'] at hg
      simpa using hg
    have h1 : data.getD (bp + 1) 0 = w := by
      rw [getD_drop_add, hdrop']
      simp
    have hdropBody : data.drop (bp + 3) = p ++ serializeCmds cs' := by
      have hdd : data.drop (bp + 3) = (data.drop bp).drop 3 := by
        rw [List.drop_drop]
      rw [hdd, hdrop']
      simp
    have hdropNext : data.drop (bp + 3 + p.length) = serializeCmds cs' := by
      have hdd : data.drop (bp + 3 + p.length) = (data.drop (bp + 3)).drop p.length := by
        rw [List.drop_drop]
      rw [hdd, hdropBody]
      simp
    have hlast' : lastOk cs' = true ∨ cs' = [] := by
      cases cs' with
      | nil => exact Or.inr rfl
      | cons c1 t =>
        left
        simpa [lastOk] using hlast
    have hbpNext : bp + 3 + p.length ≤ data.length := by omega
    obtain ⟨ihscan, ihbuild⟩ := ih (bp + 3 + p.length) (c + 1) hdropNext hbpNext hwfrest
      (by
        rcases hlast' with h | h
        · exact h
        · simp [h, lastOk])
    constructor
    · rw [scanCmds_step data bp _ c hgt hbp3, hpl,
        if_neg (show ¬ p.length > data.length - bp by omega)]
      have h3 : data.length - bp + 4294967296 - (3 + p.length)
          = (serializeCmds cs').length + 4294967296 := by omega
      rw [h3, Nat.add_mod_right,
        Nat.mod_eq_of_lt (show (serializeCmds cs').length < 4294967296 by omega)]
      have hrl : (serializeCmds cs').length = data.length - (bp + 3 + p.length) := by omega
      rw [hrl]
      simp only [List.length_cons]
      rw [show c + (cs'.length + 1) = c + 1 + cs'.length from by omega]
      exact ihscan
    · simp only [List.length_cons]
      rw [buildCmds, hpl, h0, h1, hdropBody]
      simp only [List.take_left]
      rw [Nat.mod_eq_of_lt (by omega), Nat.mod_eq_of_lt (by omega)]
      rw [ihbuild]

/-- Claim C3, counterexample: a single command with an empty payload
serializes to the 3-byte buffer `[0x05, 0x00, 0x00]`; the scan loop only
runs `while (len > 3)`, so the record is never consumed and parsing fails
with the malformed-trailer error instead of returning the command. -/
theorem serialize_parse_roundtrip_cex :
    parseCmds (serializeCmds [⟨5, 0, []⟩]) = ParseResult.trailerError ∧
    parseCmds (serializeCmds [⟨5, 0, []⟩]) ≠ ParseResult.ok [⟨5, 0, []⟩] := by
  have hs : serializeCmds [⟨5, 0, []⟩] = [5, 0, 0] := by
    simp [serializeCmds, serializeCmd]
  have hp : parseCmds [5, 0, 0] = ParseResult.trailerError := by
    rw [parseCmds, scanCmds.eq_def]
    norm_num
  rw [hs, hp]
  simp

/-- Claim C3 as amended: serializing commands with byte-sized fields and
payload lengths at most 255 and then parsing recovers the same commands,
provided the list is empty or its last command has a nonempty payload
(a trailing zero-length-payload record is rejected as a malformed trailer
because the scan loop requires strictly more than a header to remain). -/
theorem serialize_parse_roundtrip (cs : List Cmd)
    (hwf : ∀ x ∈ cs, x.dtype < 256 ∧ x.wait < 256 ∧ x.payload.length ≤ 255)
    (hlast : lastOk cs = true)
    (hlt : (serializeCmds cs).length < 4294967296) :
    parseCmds (serializeCmds cs) = ParseResult.ok cs := by
  obtain ⟨hscan, hbuild⟩ := scan_serialized (serializeCmds cs) hlt cs 0 0
    (by simp) (by omega) hwf hlast
  have hscan' : scanCmds (serializeCmds cs) 0 (serializeCmds cs).length 0
      = ScanResult.ok cs.length := by
    simpa using hscan
  rw [parseCmds, hscan']
  simp [hbuild]

/-- Witness for the amended C3 at the one-command list `[⟨5, 1, [0x11]⟩]`. -/
theorem serialize_parse_roundtrip_witness :
    serializeCmds [⟨5, 1, [17]⟩] = [5, 1, 1, 17] ∧
    parseCmds (serializeCmds [⟨5, 1, [17]⟩]) = ParseResult.ok [⟨5, 1, [17]⟩] := by
  refine ⟨by simp [serializeCmds, serializeCmd], ?_⟩
  exact serialize_parse_roundtrip [⟨5, 1, [17]⟩] (by decide) (by decide)
    (by simp [serializeCmds, serializeCmd])

/-- A sleep is never a channel write. -/
lemma isWriteEvent_sleep (w : Nat) : isWriteEvent (panel_simple_sleep w) = false := by
  unfold panel_simple_sleep
  split <;> rfl

/-- A failure report is never a channel write. -/
lemma isWriteEvent_log (e : Int) : isWriteEvent (Event.logWriteFail e) = false := rfl

/-- Unfolding one recognized command of the send loop. -/
lemma sendCmdsFrom_cons_recognized (we : Nat → Int) (k : Nat) (c : Cmd) (rest : List Cmd)
    (hc : recognizedType c.dtype = true) :
    sendCmdsFrom we k (c :: rest) =
      ((sendCmdsFrom we (k + 1) rest).1,
        expectedWriteEvent c ::
          ((if we k < 0 then [Event.logWriteFail (we k)] else []) ++
           (if c.wait != 0 then [panel_simple_sleep c.wait] else []) ++
           (sendCmdsFrom we (k + 1) rest).2)) := by
  by_cases hg : isGenericWriteType c.dtype
  · simp [sendCmdsFrom, hg, expectedWriteEvent]
  · have hd : isDcsWriteType c.dtype = true := by
      unfold recognizedType at hc
      simp [hg] at hc
      exact hc
    simp [sendCmdsFrom, hg, hd, expectedWriteEvent]

/-- On an all-recognized command list the send loop returns 0, performs one
channel write per command in order, honors every nonzero wait, and logs
every failed channel write. -/
lemma sendCmdsFrom_recognized (we : Nat → Int) :
    ∀ (cmds : List Cmd) (k : Nat),
      (∀ c ∈ cmds, recognizedType c.dtype = true) →
      (sendCmdsFrom we k cmds).1 = 0 ∧
      writeEventsOf (sendCmdsFrom we k cmds).2 = cmds.map expectedWriteEvent ∧
      (∀ c ∈ cmds, c.wait ≠ 0 → panel_simple_sleep c.wait ∈ (sendCmdsFrom we k cmds).2) ∧
      (∀ i, i < cmds.length → we (k + i) < 0 →
        Event.logWriteFail (we (k + i)) ∈ (sendCmdsFrom we k cmds).2) := by
  intro cmds
  induction cmds with
  | nil =>
    intro k _
    refine ⟨rfl, rfl, by simp, by simp⟩
  | cons c rest ih =>
    intro k hrec
    have hc : recognizedType c.dtype = true := hrec c (List.mem_cons_self _ _)
    have hrest : ∀ x ∈ rest, recognizedType x.dtype = true :=
      fun x hx => hrec x (List.mem_cons_of_mem _ hx)
    obtain ⟨ih1, ih2, ih3, ih4⟩ := ih (k + 1) hrest
    rw [sendCmdsFrom_cons_recognized we k c rest hc]
    refine ⟨ih1, ?_, ?_, ?_⟩
    · have hwr : isWriteEvent (expectedWriteEvent c) = true := by
        unfold expectedWriteEvent
        split <;> rfl
      simp only [writeEventsOf] at ih2
      by_cases hneg : we k < 0 <;> by_cases hwz : c.wait = 0 <;>
        simp [writeEventsOf, hneg, hwz, List.filter_cons, hwr,
          isWriteEvent_log, isWriteEvent_sleep, ih2]
    · intro x hx hwx
      rcases List.mem_cons.mp hx with hx0 | hxr
      · subst hx0
        have : (x.wait != 0) = true := by
          simpa using hwx
        simp [this]
      · have := ih3 x hxr hwx
        simp [this]
    · intro i hi hneg
      cases i with
      | zero =>
        simp only [Nat.add_zero] at hneg ⊢
        simp [hneg]
      | succ j =>
        have hj : j < rest.length := by
          simpa using hi
        have hkj : k + (j + 1) = (k + 1) + j := by omega
        rw [hkj] at hneg ⊢
        have := ih4 j hj hneg
        simp [this]

/-- Claim C5: a sequence whose first unrecognized command is `c` (everything
in `front` is recognized) is transmitted only up to `c`: `send` performs
exactly the channel writes of `front` in order, returns `-EINVAL` through
the `default:` arm, and nothing at or after `c` is transmitted — the trace
of the whole call equals the trace of sending `front` alone. -/
theorem send_unknown_type_aborts (we : Nat → Int) (front : List Cmd) (c : Cmd)
    (post : List Cmd)
    (hfront : ∀ x ∈ front, recognizedType x.dtype = true)
    (hc : recognizedType c.dtype = false) :
    (panel_simple_dsi_send_cmds we (front ++ c :: post)).1 = -EINVAL ∧
    (panel_simple_dsi_send_cmds we (front ++ c :: post)).2
      = (panel_simple_dsi_send_cmds we front).2 ∧
    writeEventsOf (panel_simple_dsi_send_cmds we front).2
      = front.map expectedWriteEvent := by
  have habort : ∀ (fs : List Cmd) (k : Nat),
      (∀ x ∈ fs, recognizedType x.dtype = true) →
      sendCmdsFrom we k (fs ++ c :: post) = (-EINVAL, (sendCmdsFrom we k fs).2) := by
    intro fs
    induction fs with
    | nil =>
      intro k _
      have hboth : isGenericWriteType c.dtype = false ∧ isDcsWriteType c.dtype = false := by
        unfold recognizedType at hc
        simpa using hc
      simp [sendCmdsFrom, hboth.1, hboth.2]
    | cons f fs' ih =>
      intro k hrec
      have hf : recognizedType f.dtype = true := hrec f (List.mem_cons_self _ _)
      rw [List.cons_append, sendCmdsFrom_cons_recognized we k f _ hf,
        sendCmdsFrom_cons_recognized we k f fs' hf,
        ih (k + 1) (fun x hx => hrec x (List.mem_cons_of_mem _ hx))]
  exact ⟨by rw [panel_simple_dsi_send_cmds, habort front 0 hfront],
    by rw [panel_simple_dsi_send_cmds, panel_simple_dsi_send_cmds, habort front 0 hfront],
    (sendCmdsFrom_recognized we front 0 hfront).2.1⟩

/-- Witness for C5: command 1 is a recognized DCS write, command 2 has
dtype `0xFF`; command 1 is written, the call returns `-EINVAL`, command 2
never appears in the trace. -/
theorem send_unknown_type_aborts_witness :
    (panel_simple_dsi_send_cmds (fun _ => 0) [⟨5, 0, [17]⟩, ⟨255, 0, [1]⟩]).1 = -EINVAL ∧
    (panel_simple_dsi_send_cmds (fun _ => 0) [⟨5, 0, [17]⟩, ⟨255, 0, [1]⟩]).2
      = (panel_simple_dsi_send_cmds (fun _ => 0) [⟨5, 0, [17]⟩]).2 ∧
    writeEventsOf (panel_simple_dsi_send_cmds (fun _ => 0) [⟨5, 0, [17]⟩]).2
      = [⟨5, 0, [17]⟩].map expectedWriteEvent :=
  send_unknown_type_aborts (fun _ => 0) [⟨5, 0, [17]⟩] ⟨255, 0, [1]⟩ []
    (by decide) (by decide)

/-- Claim C6: when every command has a recognized type, channel write
failures do not abort the transmission — whatever the per-command write
results `we` are, `send` returns 0, performs one channel write per command
in order (so every command after a failed one is still transmitted), honors
every nonzero per-command wait, and reports every failed write. -/
theorem send_channel_failure_nonfatal (we : Nat → Int) (cmds : List Cmd)
    (hrec : ∀ c ∈ cmds, recognizedType c.dtype = true) :
    (panel_simple_dsi_send_cmds we cmds).1 = 0 ∧
    writeEventsOf (panel_simple_dsi_send_cmds we cmds).2 = cmds.map expectedWriteEvent ∧
    (∀ c ∈ cmds, c.wait ≠ 0 →
      panel_simple_sleep c.wait ∈ (panel_simple_dsi_send_cmds we cmds).2) ∧
    (∀ i, i < cmds.length → we i < 0 →
      Event.logWriteFail (we i) ∈ (panel_simple_dsi_send_cmds we cmds).2) := by
  have h := sendCmdsFrom_recognized we cmds 0 hrec
  simpa [panel_simple_dsi_send_cmds] using h

/-- Witness for C6: two recognized commands with the first channel write
failing; the call still returns 0, both commands are written, the wait of
the first is honored and the failure is logged. -/
theorem send_channel_failure_nonfatal_witness :
    (panel_simple_dsi_send_cmds (fun i => if i = 0 then -5 else 0)
        [⟨5, 1, [17]⟩, ⟨3, 0, []⟩]).1 = 0 ∧
    writeEventsOf (panel_simple_dsi_send_cmds (fun i => if i = 0 then -5 else 0)
        [⟨5, 1, [17]⟩, ⟨3, 0, []⟩]).2
      = [⟨5, 1, [17]⟩, ⟨3, 0, []⟩].map expectedWriteEvent := by
  have h := send_channel_failure_nonfatal (fun i => if i = 0 then -5 else 0)
    [⟨5, 1, [17]⟩, ⟨3, 0, []⟩] (by decide)
  exact ⟨h.1, h.2.1⟩

/-- Claim C7: power-rail semantics under the inversion flag.  With
`power_invert`, `enable()` on a rail that is ON leaves it OFF and
`disable()` on a rail that is OFF leaves it ON; without the flag,
`enable()` turns the rail on and `disable()` turns it off.  The hypothesis
disables the injected `regulator_enable` fault. -/
theorem regulator_inversion_semantics (p : Panel) (hw : Hw)
    (hf : hw.rail.failEnable = false) :
    (p.power_invert = true → hw.rail.is_on = true →
      ((panel_simple_regulator_enable p hw).2).rail.is_on = false) ∧
    (p.power_invert = true → hw.rail.is_on = false →
      ((panel_simple_regulator_disable p hw).2).rail.is_on = true) ∧
    (p.power_invert = false →
      ((panel_simple_regulator_enable p hw).2).rail.is_on = true) ∧
    (p.power_invert = false →
      ((panel_simple_regulator_disable p hw).2).rail.is_on = false) := by
  refine ⟨fun hinv hon => ?_, fun hinv hoff => ?_, fun hinv => ?_, fun hinv => ?_⟩ <;>
    simp [panel_simple_regulator_enable, panel_simple_regulator_disable,
      regulator_is_enabled, regulator_enable, regulator_disable, hinv, hf, *]

/-- Witness for C7: an inverted rail that is ON is OFF after `enable()`,
and an inverted rail that is OFF is ON after `disable()`. -/
theorem regulator_inversion_semantics_witness :
    ((panel_simple_regulator_enable
        { prepared := false, enabled := false, power_invert := true, reset_level := 0,
          has_enable_gpio := false, has_reset_gpio := false, has_dsi := false,
          has_desc := false, delay_prepare := 0, delay_reset := 0, delay_init := 0,
          delay_enable := 0, delay_disable := 0, delay_unprepare := 0,
          on_cmds := none, off_cmds := none }
        { rail := { is_on := true, failEnable := false }, events := [] }).2).rail.is_on
      = false ∧
    ((panel_simple_regulator_disable
        { prepared := false, enabled := false, power_invert := true, reset_level := 0,
          has_enable_gpio := false, has_reset_gpio := false, has_dsi := false,
          has_desc := false, delay_prepare := 0, delay_reset := 0, delay_init := 0,
          delay_enable := 0, delay_disable := 0, delay_unprepare := 0,
          on_cmds := none, off_cmds := none }
        { rail := { is_on := false, failEnable := false }, events := [] }).2).rail.is_on
      = true :=
  ⟨(regulator_inversion_semantics _
      { rail := { is_on := true, failEnable := false }, events := [] } rfl).1 rfl rfl,
   (regulator_inversion_semantics _
      { rail := { is_on := false, failEnable := false }, events := [] } rfl).2.1 rfl rfl⟩

/-- Claim C8: when the power-rail step of `prepare()` fails, `prepare()`
returns exactly that rail error and nothing else happened: the panel state
is unchanged (still unprepared) and the hardware world is untouched — no
enable-line, reset-line or delay step of the prepare sequence executed. -/
theorem prepare_rail_failure_atomic (p : Panel) (hw : Hw)
    (hprep : p.prepared = false)
    (hfail : (panel_simple_regulator_enable p hw).1 < 0) :
    panel_simple_prepare p hw = ((panel_simple_regulator_enable p hw).1, p, hw) := by
  have hpi : p.power_invert = false := by
    cases hpi : p.power_invert
    · rfl
    · exfalso
      rw [panel_simple_regulator_enable, hpi] at hfail
      by_cases hon : regulator_is_enabled hw.rail > 0 <;> simp [hon] at hfail
  have hfe : hw.rail.failEnable = true := by
    cases hfe : hw.rail.failEnable
    · exfalso
      rw [panel_simple_regulator_enable, hpi] at hfail
      simp [regulator_enable, hfe] at hfail
    · rfl
  have hre : panel_simple_regulator_enable p hw = (-EINVAL, hw) := by
    rw [panel_simple_regulator_enable, hpi]
    simp [regulator_enable, hfe]
  rw [panel_simple_prepare, if_neg (by simp [hprep]), hre]
  norm_num [EINVAL]

/-- Witness for C8 at a concrete non-inverted panel whose regulator fails. -/
theorem prepare_rail_failure_atomic_witness :
    panel_simple_prepare
        { prepared := false, enabled := false, power_invert := false, reset_level := 0,
          has_enable_gpio := true, has_reset_gpio := true, has_dsi := false,
          has_desc := true, delay_prepare := 10, delay_reset := 5, delay_init := 30,
          delay_enable := 0, delay_disable := 0, delay_unprepare := 0,
          on_cmds := none, off_cmds := none }
        { rail := { is_on := false, failEnable := true }, events := [] }
      = ((panel_simple_regulator_enable
          { prepared := false, enabled := false, power_invert := false, reset_level := 0,
            has_enable_gpio := true, has_reset_gpio := true, has_dsi := false,
            has_desc := true, delay_prepare := 10, delay_reset := 5, delay_init := 30,
            delay_enable := 0, delay_disable := 0, delay_unprepare := 0,
            on_cmds := none, off_cmds := none }
          { rail := { is_on := false, failEnable := true }, events := [] }).1,
         { prepared := false, enabled := false, power_invert := false, reset_level := 0,
           has_enable_gpio := true, has_reset_gpio := true, has_dsi := false,
           has_desc := true, delay_prepare := 10, delay_reset := 5, delay_init := 30,
           delay_enable := 0, delay_disable := 0, delay_unprepare := 0,
           on_cmds := none, off_cmds := none },
         { rail := { is_on := false, failEnable := true }, events := [] }) :=
  prepare_rail_failure_atomic _ _ rfl (by decide)

/-- Claim C10: when the on-sequence transmission of `enable()` fails, the
call still completes the transition (`enabled` ends true) but returns the
transmission error instead of success — the error return and the completed
transition occur together. -/
theorem enable_error_return_with_transition (we : Nat → Int) (p : Panel) (hw : Hw)
    (cs : List Cmd)
    (hen : p.enabled = false) (hon : p.on_cmds = some cs) (hdsi : p.has_dsi = true)
    (hfail : (panel_simple_dsi_send_cmds we cs).1 < 0) :
    (panel_simple_enable we p hw).1 = (panel_simple_dsi_send_cmds we cs).1 ∧
    (panel_simple_enable we p hw).1 < 0 ∧
    (panel_simple_enable we p hw).2.1.enabled = true := by
  rw [panel_simple_enable, if_neg (by simp [hen])]
  simp [hon, hdsi, hfail]

/-- Witness for C10: the on-sequence holds one unknown-type command, so the
send fails with `-EINVAL`; `enable()` returns it and still sets the flag. -/
theorem enable_error_return_with_transition_witness :
    (panel_simple_enable (fun _ => 0)
        { prepared := true, enabled := false, power_invert := false, reset_level := 0,
          has_enable_gpio := false, has_reset_gpio := false, has_dsi := true,
          has_desc := true, delay_prepare := 0, delay_reset := 0, delay_init := 0,
          delay_enable := 0, delay_disable := 0, delay_unprepare := 0,
          on_cmds := some [⟨255, 0, []⟩], off_cmds := none }
        { rail := { is_on := true, failEnable := false }, events := [] }).1
      = (panel_simple_dsi_send_cmds (fun _ => 0) [⟨255, 0, []⟩]).1 ∧
    (panel_simple_enable (fun _ => 0)
        { prepared := true, enabled := false, power_invert := false, reset_level := 0,
          has_enable_gpio := false, has_reset_gpio := false, has_dsi := true,
          has_desc := true, delay_prepare := 0, delay_reset := 0, delay_init := 0,
          delay_enable := 0, delay_disable := 0, delay_unprepare := 0,
          on_cmds := some [⟨255, 0, []⟩], off_cmds := none }
        { rail := { is_on := true, failEnable := false }, events := [] }).2.1.enabled
      = true := by
  have h := enable_error_return_with_transition (fun _ => 0)
    { prepared := true, enabled := false, power_invert := false, reset_level := 0,
      has_enable_gpio := false, has_reset_gpio := false, has_dsi := true,
      has_desc := true, delay_prepare := 0, delay_reset := 0, delay_init := 0,
      delay_enable := 0, delay_disable := 0, delay_unprepare := 0,
      on_cmds := some [⟨255, 0, []⟩], off_cmds := none }
    { rail := { is_on := true, failEnable := false }, events := [] }
    [⟨255, 0, []⟩] rfl rfl rfl (by decide)
  exact ⟨h.1, h.2.2⟩

/-- The function `prepare()` never touches the enabled flag and can only set the
prepared flag. -/
lemma prepare_flag_effects (p : Panel) (hw : Hw) :
    (panel_simple_prepare p hw).2.1.enabled = p.enabled ∧
    ((panel_simple_prepare p hw).2.1.prepared = p.prepared ∨
     (panel_simple_prepare p hw).2.1.prepared = true) := by
  by_cases hp : p.prepared
  · simp [panel_simple_prepare, hp]
  · by_cases hr : (panel_simple_regulator_enable p hw).1 < 0 <;>
      simp [panel_simple_prepare, hp, hr]

/-- The function `enable()` never touches the prepared flag. -/
lemma enable_flag_effects (we : Nat → Int) (p : Panel) (hw : Hw) :
    (panel_simple_enable we p hw).2.1.prepared = p.prepared := by
  by_cases he : p.enabled <;> simp [panel_simple_enable, he]

/-- The function `disable()` never touches the prepared flag and can only clear the
enabled flag. -/
lemma disable_flag_effects (p : Panel) (hw : Hw) :
    (panel_simple_disable p hw).2.1.prepared = p.prepared ∧
    ((panel_simple_disable p hw).2.1.enabled = p.enabled ∨
     (panel_simple_disable p hw).2.1.enabled = false) := by
  by_cases he : p.enabled <;> simp [panel_simple_disable, he]

/-- The function `unprepare()` never touches the enabled flag. -/
lemma unprepare_flag_effects (we : Nat → Int) (p : Panel) (hw : Hw) :
    (panel_simple_unprepare we p hw).2.1.enabled = p.enabled := by
  by_cases hp : p.prepared <;> simp [panel_simple_unprepare, hp]

/-- Claim C2, counterexample: the state `enabled ∧ ¬prepared` is reachable.
A single `enable()` from the initial state sets the enabled flag without
requiring the prepared flag, and `prepare(); enable(); unprepare()` ends
with the prepared flag cleared but the enabled flag still set, because
`panel_simple_unprepare` never clears `p->enabled`. -/
theorem enabled_without_prepared_reachable :
    ((runOps (fun _ => 0) [Op.enable]
        ({ prepared := false, enabled := false, power_invert := false, reset_level := 0,
           has_enable_gpio := false, has_reset_gpio := false, has_dsi := false,
           has_desc := false, delay_prepare := 0, delay_reset := 0, delay_init := 0,
           delay_enable := 0, delay_disable := 0, delay_unprepare := 0,
           on_cmds := none, off_cmds := none },
         { rail := { is_on := false, failEnable := false }, events := [] })).1.enabled = true ∧
     (runOps (fun _ => 0) [Op.enable]
        ({ prepared := false, enabled := false, power_invert := false, reset_level := 0,
           has_enable_gpio := false, has_reset_gpio := false, has_dsi := false,
           has_desc := false, delay_prepare := 0, delay_reset := 0, delay_init := 0,
           delay_enable := 0, delay_disable := 0, delay_unprepare := 0,
           on_cmds := none, off_cmds := none },
         { rail := { is_on := false, failEnable := false }, events := [] })).1.prepared = false) ∧
    ((runOps (fun _ => 0) [Op.prepare, Op.enable, Op.unprepare]
        ({ prepared := false, enabled := false, power_invert := false, reset_level := 0,
           has_enable_gpio := false, has_reset_gpio := false, has_dsi := false,
           has_desc := false, delay_prepare := 0, delay_reset := 0, delay_init := 0,
           delay_enable := 0, delay_disable := 0, delay_unprepare := 0,
           on_cmds := none, off_cmds := none },
         { rail := { is_on := false, failEnable := false }, events := [] })).1.enabled = true ∧
     (runOps (fun _ => 0) [Op.prepare, Op.enable, Op.unprepare]
        ({ prepared := false, enabled := false, power_invert := false, reset_level := 0,
           has_enable_gpio := false, has_reset_gpio := false, has_dsi := false,
           has_desc := false, delay_prepare := 0, delay_reset := 0, delay_init := 0,
           delay_enable := 0, delay_disable := 0, delay_unprepare := 0,
           on_cmds := none, off_cmds := none },
         { rail := { is_on := false, failEnable := false }, events := [] })).1.prepared = false) := by
  decide

/-- Claim C2 as amended: the invariant `enabled → prepared` is preserved by
every run in which `enable()` is only called in a prepared state and
`unprepare()` only with the enabled flag clear (the discipline the driver
expects from its caller); without that discipline the invariant is not
maintained by the code (see the reachability counterexample). -/
theorem lifecycle_invariant_under_guarded_ops (we : Nat → Int) (ops : List Op)
    (pw : Panel × Hw)
    (hg : guardedOps we ops pw = true)
    (hinv : pw.1.enabled = true → pw.1.prepared = true) :
    (runOps we ops pw).1.enabled = true → (runOps we ops pw).1.prepared = true := by
  induction ops generalizing pw with
  | nil => simpa [runOps] using hinv
  | cons op rest ih =>
    have hrun : runOps we (op :: rest) pw = runOps we rest (stepOp we pw op) := by
      simp [runOps]
    rw [hrun]
    cases op with
    | prepare =>
      simp only [guardedOps, Bool.true_and] at hg
      refine ih _ hg ?_
      intro he
      obtain ⟨hen, hpr⟩ := prepare_flag_effects pw.1 pw.2
      simp only [stepOp] at he ⊢
      rcases hpr with h | h
      · rw [h]
        exact hinv (by rw [← hen]; exact he)
      · exact h
    | enable =>
      simp only [guardedOps, Bool.and_eq_true] at hg
      obtain ⟨hg1, hg2⟩ := hg
      refine ih _ hg2 ?_
      intro he
      simp only [stepOp] at he ⊢
      rw [enable_flag_effects we pw.1 pw.2]
      exact hg1
    | disable =>
      simp only [guardedOps, Bool.true_and] at hg
      refine ih _ hg ?_
      intro he
      obtain ⟨hpr, hen⟩ := disable_flag_effects pw.1 pw.2
      simp only [stepOp] at he ⊢
      rcases hen with h | h
      · rw [hpr]
        exact hinv (by rw [← h]; exact he)
      · rw [h] at he
        cases he
    | unprepare =>
      simp only [guardedOps, Bool.and_eq_true] at hg
      obtain ⟨hg1, hg2⟩ := hg
      have hg1' : pw.1.enabled = false := by simpa using hg1
      refine ih _ hg2 ?_
      intro he
      simp only [stepOp] at he ⊢
      rw [unprepare_flag_effects we pw.1 pw.2, hg1'] at he
      cases he

/-- Witness for the amended C2: a guarded run
`prepare; enable; disable; unprepare` from the initial state keeps the
invariant. -/
theorem lifecycle_invariant_under_guarded_ops_witness :
    guardedOps (fun _ => 0) [Op.prepare, Op.enable, Op.disable, Op.unprepare]
      ({ prepared := false, enabled := false, power_invert := false, reset_level := 0,
         has_enable_gpio := true, has_reset_gpio := true, has_dsi := false,
         has_desc := true, delay_prepare := 1, delay_reset := 1, delay_init := 1,
         delay_enable := 1, delay_disable := 1, delay_unprepare := 1,
         on_cmds := none, off_cmds := none },
       { rail := { is_on := false, failEnable := false }, events := [] }) = true ∧
    ((runOps (fun _ => 0) [Op.prepare, Op.enable, Op.disable, Op.unprepare]
        ({ prepared := false, enabled := false, power_invert := false, reset_level := 0,
           has_enable_gpio := true, has_reset_gpio := true, has_dsi := false,
           has_desc := true, delay_prepare := 1, delay_reset := 1, delay_init := 1,
           delay_enable := 1, delay_disable := 1, delay_unprepare := 1,
           on_cmds := none, off_cmds := none },
         { rail := { is_on := false, failEnable := false }, events := [] })).1.enabled = true →
     (runOps (fun _ => 0) [Op.prepare, Op.enable, Op.disable, Op.unprepare]
        ({ prepared := false, enabled := false, power_invert := false, reset_level := 0,
           has_enable_gpio := true, has_reset_gpio := true, has_dsi := false,
           has_desc := true, delay_prepare := 1, delay_reset := 1, delay_init := 1,
           delay_enable := 1, delay_disable := 1, delay_unprepare := 1,
           on_cmds := none, off_cmds := none },
         { rail := { is_on := false, failEnable := false }, events := [] })).1.prepared = true) :=
  ⟨by decide,
   lifecycle_invariant_under_guarded_ops (fun _ => 0)
     [Op.prepare, Op.enable, Op.disable, Op.unprepare] _ (by decide) (by decide)⟩
